import Mathlib

/-!
# Verification of the snapshot diff / aggregation engine (`diff.py`)

Shallow embedding of `src/diff.py` from the steam-digest repository.

Python dicts preserve insertion order and have unique keys; we model every
mapping as an association list `List (String × α)` iterated in order, and add
key-`Nodup` hypotheses exactly where a theorem depends on key uniqueness.
`dict.get(key, default)` is modelled by `lookupD` below.  Integer arithmetic
in Python is unbounded, so playtimes and deltas are `Int`.
-/

namespace SteamDigest

/-- `d.get(key, default)` on an association list: value of the first entry
whose key equals `key`, else the default. -/
def lookupD {α : Type} (l : List (String × α)) (key : String) (dflt : α) : α :=
  match l.find? (fun p => p.1 == key) with
  | some p => p.2
  | none => dflt

/-- One game's record inside a snapshot.  `diff.py` reads the three keys
`playtime_forever`, `playtime_2weeks` and `achievements` with
`.get(_, 0)` / `.get(_, [])` defaults, so absent keys are represented by the
default field values. -/
structure GameData where
  playtime_forever : Int := 0
  playtime_2weeks : Int := 0
  achievements : List String := []
deriving Repr, DecidableEq, Inhabited

/-- One user's record inside a snapshot: `current_user.get('games', {})`. -/
structure UserData where
  games : List (String × GameData) := []
deriving Repr, DecidableEq, Inhabited

/-- A snapshot: mapping username → user record. -/
abbrev Snapshot := List (String × UserData)

/-- The per-user entry of a DailyDiff, as initialised at the top of the
per-user loop of `calculate_daily_diff` (lines 42–48 of `diff.py`). -/
structure UserDiff where
  played : List (String × Int) := []
  achievements : List (String × List String) := []
  total_minutes : Int := 0
  new_games : List String := []
  games_played : Nat := 0
deriving Repr, DecidableEq, Inhabited

/-- The DailyDiff: mapping username → per-user diff. -/
abbrev DailyDiff := List (String × UserDiff)

/-- Body of the per-game loop of `calculate_daily_diff`
(`diff.py` lines 56–86), updating the accumulated `UserDiff` `r`.
`previousEmpty` is the test `not previous` of line 66 (the whole old
snapshot is empty). -/
def processGame (previousEmpty : Bool) (previous_games : List (String × GameData))
    (r : UserDiff) (g : String × GameData) : UserDiff :=
  let game_name := g.1
  let game_data := g.2
  let current_playtime := game_data.playtime_forever
  let previous_game := lookupD previous_games game_name {}
  let previous_playtime := previous_game.playtime_forever
  let time_delta : Int :=
    if previousEmpty = true ∧ 0 < game_data.playtime_2weeks then
      game_data.playtime_2weeks
    else
      current_playtime - previous_playtime
  let r :=
    if 0 < time_delta then
      -- set(current) - set(previous), listed here in the order of the current
      -- list (Python's set order is unspecified; membership agrees).
      let new_achievements :=
        game_data.achievements.filter (fun a => !previous_game.achievements.contains a)
      { r with
        played := r.played ++ [(game_name, time_delta)]
        total_minutes := r.total_minutes + time_delta
        games_played := r.games_played + 1
        achievements :=
          if new_achievements.isEmpty then r.achievements
          else r.achievements ++ [(game_name, new_achievements)] }
    else r
  if (previous_games.find? (fun p => p.1 == game_name)).isNone then
    { r with new_games := r.new_games ++ [game_name] }
  else r

/-- `calculate_daily_diff(previous, current)` (`diff.py` lines 33–88).
The guard `if username not in current: continue` (lines 39–40) can never
fire while iterating over `current`, so it is omitted. -/
def calculate_daily_diff (previous current : Snapshot) : DailyDiff :=
  current.map (fun p =>
    let previous_user := lookupD previous p.1 {}
    (p.1, p.2.games.foldl (processGame previous.isEmpty previous_user.games) {}))

/-- The delta `calculate_daily_diff` computes for one game record `g` of the
current snapshot (lines 58–68): the forever-playtime subtraction, overridden
by `playtime_2weeks` when the whole old snapshot is empty and the two-week
figure is positive. -/
def gameDelta (previousEmpty : Bool) (previous_games : List (String × GameData))
    (g : String × GameData) : Int :=
  if previousEmpty = true ∧ 0 < g.2.playtime_2weeks then g.2.playtime_2weeks
  else g.2.playtime_forever - (lookupD previous_games g.1 {}).playtime_forever

/-- The achievement difference computed for one game record (lines 77–79). -/
def newAchievements (previous_games : List (String × GameData))
    (g : String × GameData) : List String :=
  g.2.achievements.filter (fun a => !(lookupD previous_games g.1 {}).achievements.contains a)

theorem processGame_played (pe : Bool) (pg : List (String × GameData))
    (r : UserDiff) (g : String × GameData) :
    (processGame pe pg r g).played =
      r.played ++ (if 0 < gameDelta pe pg g then [(g.1, gameDelta pe pg g)] else []) := by
  simp only [processGame, gameDelta, lookupD]
  split_ifs <;> simp_all

theorem processGame_total (pe : Bool) (pg : List (String × GameData))
    (r : UserDiff) (g : String × GameData) :
    (processGame pe pg r g).total_minutes =
      r.total_minutes + (if 0 < gameDelta pe pg g then gameDelta pe pg g else 0) := by
  simp only [processGame, gameDelta, lookupD]
  split_ifs <;> simp_all

theorem processGame_games_played (pe : Bool) (pg : List (String × GameData))
    (r : UserDiff) (g : String × GameData) :
    (processGame pe pg r g).games_played =
      r.games_played + (if 0 < gameDelta pe pg g then 1 else 0) := by
  simp only [processGame, gameDelta, lookupD]
  split_ifs <;> simp_all

theorem processGame_new_games (pe : Bool) (pg : List (String × GameData))
    (r : UserDiff) (g : String × GameData) :
    (processGame pe pg r g).new_games =
      r.new_games ++ (if (pg.find? (fun p => p.1 == g.1)).isNone then [g.1] else []) := by
  simp only [processGame, lookupD]
  split_ifs <;> simp_all

theorem processGame_achievements (pe : Bool) (pg : List (String × GameData))
    (r : UserDiff) (g : String × GameData) :
    (processGame pe pg r g).achievements =
      r.achievements ++
        (if 0 < gameDelta pe pg g ∧ ¬(newAchievements pg g).isEmpty then
          [(g.1, newAchievements pg g)] else []) := by
  simp only [processGame, gameDelta, newAchievements, lookupD]
  split_ifs <;> simp_all

/-- Positivity test for the delta of one game record, as a Bool predicate. -/
def posDelta (pe : Bool) (pg : List (String × GameData)) (g : String × GameData) : Bool :=
  decide (0 < gameDelta pe pg g)

theorem foldl_processGame_played (pe : Bool) (pg : List (String × GameData)) :
    ∀ (l : List (String × GameData)) (r : UserDiff),
      (l.foldl (processGame pe pg) r).played =
        r.played ++ (l.filter (posDelta pe pg)).map (fun g => (g.1, gameDelta pe pg g))
  | [], r => by simp
  | g :: l, r => by
    rw [List.foldl_cons, foldl_processGame_played pe pg l, processGame_played]
    by_cases h : 0 < gameDelta pe pg g <;> simp [posDelta, h, List.filter_cons]

theorem foldl_processGame_total (pe : Bool) (pg : List (String × GameData)) :
    ∀ (l : List (String × GameData)) (r : UserDiff),
      (l.foldl (processGame pe pg) r).total_minutes =
        r.total_minutes +
          (((l.filter (posDelta pe pg)).map (gameDelta pe pg)).sum)
  | [], r => by simp
  | g :: l, r => by
    rw [List.foldl_cons, foldl_processGame_total pe pg l, processGame_total]
    by_cases h : 0 < gameDelta pe pg g <;>
      simp [posDelta, h, List.filter_cons, add_assoc]

theorem foldl_processGame_games_played (pe : Bool) (pg : List (String × GameData)) :
    ∀ (l : List (String × GameData)) (r : UserDiff),
      (l.foldl (processGame pe pg) r).games_played =
        r.games_played + (l.filter (posDelta pe pg)).length
  | [], r => by simp
  | g :: l, r => by
    rw [List.foldl_cons, foldl_processGame_games_played pe pg l, processGame_games_played]
    by_cases h : 0 < gameDelta pe pg g <;>
      simp [posDelta, h, List.filter_cons, Nat.add_assoc, Nat.add_comm]

theorem foldl_processGame_new_games (pe : Bool) (pg : List (String × GameData)) :
    ∀ (l : List (String × GameData)) (r : UserDiff),
      (l.foldl (processGame pe pg) r).new_games =
        r.new_games ++
          (l.filter (fun g => (pg.find? (fun p => p.1 == g.1)).isNone)).map Prod.fst
  | [], r => by simp
  | g :: l, r => by
    rw [List.foldl_cons, foldl_processGame_new_games pe pg l, processGame_new_games]
    by_cases h : (pg.find? (fun p => p.1 == g.1)).isNone <;>
      simp [h, List.filter_cons]

theorem foldl_processGame_achievements (pe : Bool) (pg : List (String × GameData)) :
    ∀ (l : List (String × GameData)) (r : UserDiff),
      (l.foldl (processGame pe pg) r).achievements =
        r.achievements ++
          (l.filter (fun g => posDelta pe pg g && !(newAchievements pg g).isEmpty)).map
            (fun g => (g.1, newAchievements pg g))
  | [], r => by simp
  | g :: l, r => by
    rw [List.foldl_cons, foldl_processGame_achievements pe pg l, processGame_achievements]
    by_cases h : 0 < gameDelta pe pg g ∧ ¬(newAchievements pg g).isEmpty
    · simp [posDelta, List.filter_cons, h, h.1, h.2]
    · have hb : (decide (0 < gameDelta pe pg g) && !(newAchievements pg g).isEmpty) = false := by
        rcases not_and_or.mp h with h | h
        · simp [h]
        · simp at h
          simp [h]
      rw [if_neg h]
      simp [posDelta, List.filter_cons, hb]

/-! ## Group statistics (`calculate_group_stats`, `diff.py` lines 90–168) -/

/-- An entry of the `all_games_played` rollup dict (lines 122–125). -/
structure GameAgg where
  players : List String := []
  total_minutes : Int := 0
deriving Repr, DecidableEq, Inhabited

/-- An element of `games_played_together` (lines 141–149). -/
structure TogetherGame where
  name : String
  players : List String
  total_minutes : Int
deriving Repr, DecidableEq, Inhabited

/-- The `most_played_game` record (lines 134–138). -/
structure MostPlayedGame where
  name : String
  total_minutes : Int
  players : List String
deriving Repr, DecidableEq, Inhabited

/-- The `longest_session` record (lines 158–162). -/
structure SessionInfo where
  player : String
  game : String
  minutes : Int
deriving Repr, DecidableEq, Inhabited

/-- The result of `calculate_group_stats`. -/
structure GroupStats where
  total_group_minutes : Int
  most_active_player : Option String
  most_played_game : Option MostPlayedGame
  games_played_together : List TogetherGame
  longest_session : Option SessionInfo
  total_achievements : Nat
  new_games_discovered : List String
deriving Repr, DecidableEq, Inhabited

/-- Lines 122–125: insert-if-absent then append the player and add the
minutes.  A Python dict update keeps the entry's position, which `List.map`
mirrors; a fresh key is appended at the end (insertion order). -/
def addPlayed (username : String) (agg : List (String × GameAgg))
    (q : String × Int) : List (String × GameAgg) :=
  if agg.any (fun p => p.1 == q.1) then
    agg.map (fun p =>
      if p.1 == q.1 then (p.1, ⟨p.2.players ++ [username], p.2.total_minutes + q.2⟩)
      else p)
  else
    agg ++ [(q.1, ⟨[username], q.2⟩)]

/-- The nested loop of lines 108–125 restricted to building
`all_games_played`. -/
def gamesAggOf (daily_diff : DailyDiff) : List (String × GameAgg) :=
  daily_diff.foldl
    (fun agg p => p.2.played.foldl (fun agg2 q => addPlayed p.1 agg2 q) agg) []

/-- Python's `max(d, key=d.get)` over an association list: the first entry
whose value is maximal (`max` replaces the best only on a strictly greater
key). -/
def maxBySnd (l : List (String × Int)) : Option (String × Int) :=
  match l with
  | [] => none
  | x :: xs => some (xs.foldl (fun b p => if b.2 < p.2 then p else b) x)

/-- `max(all_games_played, key=lambda x: ...total_minutes)` (line 133). -/
def maxByTotal (l : List (String × GameAgg)) : Option (String × GameAgg) :=
  match l with
  | [] => none
  | x :: xs => some (xs.foldl (fun b p => if b.2.total_minutes < p.2.total_minutes then p else b) x)

/-- One step of the longest-session scan (lines 156–162): the pair is
`(longest_minutes, longest_session)` and an entry wins only when strictly
greater. -/
def sessionStep (acc : Int × Option SessionInfo)
    (s : String × String × Int) : Int × Option SessionInfo :=
  if acc.1 < s.2.2 then (s.2.2, some ⟨s.1, s.2.1, s.2.2⟩) else acc

/-- The nested loop of lines 151–163 starting from `(0, None)`. -/
def longestOf (daily_diff : DailyDiff) : Int × Option SessionInfo :=
  daily_diff.foldl
    (fun acc p => p.2.played.foldl (fun acc2 q => sessionStep acc2 (p.1, q.1, q.2)) acc)
    (0, none)

/-- `calculate_group_stats(daily_diff)` (`diff.py` lines 90–168).  The single
Python pass over the users updates independent accumulators; they are written
here as one fold per accumulator, each folding in the same order.
`all_new_games` is a Python set built by `update`; its iteration order is
unspecified, so it is modelled as the first-occurrence dedup in scan order
(membership agrees with the set). -/
def calculate_group_stats (daily_diff : DailyDiff) : GroupStats :=
  let user_totals : List (String × Int) := daily_diff.map (fun p => (p.1, p.2.total_minutes))
  let all_games_played := gamesAggOf daily_diff
  { total_group_minutes := daily_diff.foldl (fun acc p => acc + p.2.total_minutes) 0
    most_active_player := (maxBySnd user_totals).map Prod.fst
    most_played_game :=
      (maxByTotal all_games_played).map (fun p => ⟨p.1, p.2.total_minutes, p.2.players⟩)
    games_played_together :=
      (all_games_played.filter (fun p => 1 < p.2.players.length)).map
        (fun p => ⟨p.1, p.2.players, p.2.total_minutes⟩)
    longest_session := (longestOf daily_diff).2
    total_achievements :=
      daily_diff.foldl (fun acc p => p.2.achievements.foldl (fun a q => a + q.2.length) acc) 0
    new_games_discovered :=
      daily_diff.foldl
        (fun acc p => p.2.new_games.foldl (fun a g => if a.contains g then a else a ++ [g]) acc) [] }

/-- `generate_daily_report` (lines 170–182). -/
structure Report where
  individual_stats : DailyDiff
  group_stats : GroupStats
  has_activity : Bool
deriving Repr, DecidableEq, Inhabited

def generate_daily_report (current_snapshot previous_snapshot : Snapshot) : Report :=
  let daily_diff := calculate_daily_diff previous_snapshot current_snapshot
  { individual_stats := daily_diff
    group_stats := calculate_group_stats daily_diff
    has_activity := daily_diff.any (fun p => 0 < p.2.total_minutes) }

/-! ## Snapshot persistence (`save_snapshot`, `diff.py` lines 22–31)

The file write is effectful; it is modelled by its outcome, an
`Except String Unit` (`.error msg` standing for a raised exception).  The
`try/except` of the source is the explicit `tryCatch` below. -/

/-- Python `try: body except Exception as e: handler(e)` for a body whose
outcome is already known. -/
def tryCatch (body : Except String Unit) (handler : String → Except String Unit) :
    Except String Unit :=
  match body with
  | .ok u => .ok u
  | .error e => handler e

/-- `save_snapshot(snapshot, filepath)` (lines 22–31), abstracted over the
outcome `writeOutcome` of the `mkdir`/`open`/`json.dump` body.  The
`except Exception` arm only calls `logger.error` and falls through, so the
function returns `None` (here `.ok ()`) on every path. -/
def save_snapshot (writeOutcome : Except String Unit) : Except String Unit :=
  tryCatch writeOutcome (fun _ => .ok ())

/-! ## Helper lemmas about association lists -/

theorem find?_eq_some_of_nodup {α : Type} :
    ∀ {l : List (String × α)} {k : String} {a : α},
      (l.map Prod.fst).Nodup → (k, a) ∈ l →
      l.find? (fun p => p.1 == k) = some (k, a) := by
  intro l
  induction l with
  | nil => intro k a _ h; simp at h
  | cons p t ih =>
    intro k a hnd hmem
    simp only [List.map_cons, List.nodup_cons] at hnd
    rcases List.mem_cons.mp hmem with h | h
    · subst h
      exact List.find?_cons_of_pos _ (by simp)
    · have hk : ¬(p.1 == k) = true := by
        intro hbeq
        refine hnd.1 ?_
        have hpk : p.1 = k := by simpa using hbeq
        rw [hpk]
        exact List.mem_map.mpr ⟨(k, a), h, rfl⟩
    -- the head does not match, so `find?` continues in the tail
      have step : (p :: t).find? (fun q => q.1 == k) = t.find? (fun q => q.1 == k) :=
        List.find?_cons_of_neg t hk
      exact step.trans (ih hnd.2 h)

theorem filter_keys_nodup {α : Type} {l : List (String × α)} (p : String × α → Bool)
    (hnd : (l.map Prod.fst).Nodup) : ((l.filter p).map Prod.fst).Nodup :=
  hnd.sublist ((l.filter_sublist).map Prod.fst)

/-- The per-user result of `calculate_daily_diff` for entry `(username, ud)`
of the current snapshot. -/
def userDiffFor (previous : Snapshot) (username : String) (ud : UserData) : UserDiff :=
  ud.games.foldl (processGame previous.isEmpty (lookupD previous username {}).games) {}

theorem calculate_daily_diff_eq_map (previous current : Snapshot) :
    calculate_daily_diff previous current =
      current.map (fun p => (p.1, userDiffFor previous p.1 p.2)) := rfl

theorem userDiffFor_played (previous : Snapshot) (username : String) (ud : UserData) :
    (userDiffFor previous username ud).played =
      (ud.games.filter (posDelta previous.isEmpty (lookupD previous username {}).games)).map
        (fun g => (g.1, gameDelta previous.isEmpty (lookupD previous username {}).games g)) := by
  rw [userDiffFor, foldl_processGame_played]
  rfl

/-! ## C1: first-run fallback scope -/

def oldC1 : Snapshot := [("carol", ⟨[]⟩)]
def newC1 : Snapshot := [("alice", ⟨[("G", ⟨5, 10, []⟩)]⟩)]

/-- C1 counterexample: in `oldC1` the old snapshot is non-empty but has no
record for user `alice`; `alice`'s game `G` has `playtime_forever = 5` and
`playtime_2weeks = 10 > 0`.  The claim says the recorded delta is the
two-week figure `10`; the code only applies the fallback when the whole old
snapshot is empty (`if not previous`), so it records the forever-playtime
subtraction `5 - 0 = 5`. -/
theorem C1_counterexample :
    calculate_daily_diff oldC1 newC1 =
      [("alice", { played := [("G", 5)], achievements := [], total_minutes := 5,
                   new_games := ["G"], games_played := 1 })] ∧ (5 : Int) ≠ 10 := by
  exact ⟨rfl, by decide⟩

/-- C1 (amended): the `playtime_2weeks` fallback applies only when the
entire old snapshot is empty, not merely when the user has no old record:
for an empty old snapshot, every game of every user of the new snapshot with
positive `playtime_2weeks` gets exactly `playtime_2weeks` recorded as its
delta in `played`. -/
theorem C1_first_run_fallback (current : Snapshot) (u g : String) (ud : UserData)
    (gd : GameData) (hmem : (u, ud) ∈ current) (hg : (g, gd) ∈ ud.games)
    (hnd : (ud.games.map Prod.fst).Nodup) (h2w : 0 < gd.playtime_2weeks) :
    ∃ df, (u, df) ∈ calculate_daily_diff [] current ∧
      df.played.find? (fun q => q.1 == g) = some (g, gd.playtime_2weeks) := by
  refine ⟨userDiffFor [] u ud, ?_, ?_⟩
  · rw [calculate_daily_diff_eq_map]
    exact List.mem_map.mpr ⟨(u, ud), hmem, rfl⟩
  · rw [userDiffFor_played]
    simp only [show ([] : Snapshot).isEmpty = true from rfl]
    set pg := (lookupD ([] : Snapshot) u ({} : UserData)).games with hpg
    have hdelta : gameDelta true pg (g, gd) = gd.playtime_2weeks := by
      simp [gameDelta, h2w]
    have hpos : posDelta true pg (g, gd) = true := by
      simp [posDelta, hdelta, h2w]
    have hkeys :
        (((ud.games.filter (posDelta true pg)).map
          (fun x => (x.1, gameDelta true pg x))).map Prod.fst).Nodup := by
      rw [List.map_map]
      exact filter_keys_nodup _ hnd
    refine find?_eq_some_of_nodup hkeys ?_
    have hmf : (g, gd) ∈ ud.games.filter (posDelta true pg) :=
      List.mem_filter.mpr ⟨hg, hpos⟩
    have hmm : (g, gameDelta true pg (g, gd)) ∈
        (ud.games.filter (posDelta true pg)).map (fun x => (x.1, gameDelta true pg x)) :=
      List.mem_map.mpr ⟨(g, gd), hmf, rfl⟩
    rwa [hdelta] at hmm

/-- C1 witness. -/
theorem C1_first_run_fallback_witness :
    ∃ df, ("alice", df) ∈ calculate_daily_diff [] newC1 ∧
      df.played.find? (fun q => q.1 == "G") = some ("G", 10) :=
  C1_first_run_fallback newC1 "alice" "G" ⟨[("G", ⟨5, 10, []⟩)]⟩ ⟨5, 10, []⟩
    (by decide) (by decide) (by decide) (by decide)

/-! ## C2: the spec's two-user scenario -/

def oldC2 : Snapshot := [("alice", ⟨[("Chess", ⟨100, 0, []⟩)]⟩)]
def newC2 : Snapshot :=
  [("alice", ⟨[("Chess", ⟨130, 0, []⟩)]⟩), ("bob", ⟨[("Chess", ⟨20, 0, []⟩)]⟩)]

/-- C2 counterexample: at the claim's exact inputs, `bob` (absent from the
non-empty old snapshot) gets delta `20 - 0 = 20` for Chess, recorded in
`played` — not `0` with Chess only in `new_games` — and consequently
`games_played_together` is not empty (Chess is credited to both users). -/
theorem C2_counterexample :
    (lookupD (calculate_daily_diff oldC2 newC2) "bob" {}).played = [("Chess", 20)] ∧
    (calculate_group_stats (calculate_daily_diff oldC2 newC2)).games_played_together ≠ [] := by
  exact ⟨rfl, by decide⟩

/-- C2 (amended): at these inputs `alice.played = {Chess: 30}`; `bob`'s old
record is missing so his baseline defaults to `0` and his delta is `20`
(recorded in `played`, and Chess also appears in his `new_games`);
`games_played_together` contains exactly Chess with players
`[alice, bob]` and `total_minutes 50`; `most_active_player` is `alice`. -/
theorem C2_scenario :
    calculate_daily_diff oldC2 newC2 =
      [("alice", { played := [("Chess", 30)], achievements := [], total_minutes := 30,
                   new_games := [], games_played := 1 }),
       ("bob", { played := [("Chess", 20)], achievements := [], total_minutes := 20,
                 new_games := ["Chess"], games_played := 1 })] ∧
    (calculate_group_stats (calculate_daily_diff oldC2 newC2)).games_played_together =
      [⟨"Chess", ["alice", "bob"], 50⟩] ∧
    (calculate_group_stats (calculate_daily_diff oldC2 newC2)).most_active_player =
      some "alice" := by
  exact ⟨rfl, rfl, rfl⟩

/-! ## C3: save_snapshot and write failures -/

/-- C3 counterexample: a failing storage write (`.error`) is swallowed by
the `except Exception` handler of `save_snapshot`, which only logs; the
function returns normally (`.ok ()`), masking the failure from the caller. -/
theorem C3_counterexample :
    save_snapshot (Except.error "disk full") = Except.ok () := rfl

/-- C3 (amended): `save_snapshot` returns normally on every write outcome;
a failed write is logged but never propagated to the caller as an error
outcome. -/
theorem C3_save_masks_failure (writeOutcome : Except String Unit) :
    save_snapshot writeOutcome = Except.ok () := by
  cases writeOutcome <;> rfl

/-! ## C7: aggregation conservation -/

theorem foldl_add_total :
    ∀ (l : DailyDiff) (a : Int),
      l.foldl (fun acc p => acc + p.2.total_minutes) a =
        a + (l.map (fun p => p.2.total_minutes)).sum
  | [], a => by simp
  | p :: l, a => by
    rw [List.foldl_cons, foldl_add_total l]
    simp [add_assoc]

/-! ## Further helper lemmas for the per-user characterisation -/

theorem mem_unique_of_nodup {α : Type} {l : List (String × α)} {k : String} {a b : α}
    (hnd : (l.map Prod.fst).Nodup) (ha : (k, a) ∈ l) (hb : (k, b) ∈ l) : a = b := by
  have h1 := find?_eq_some_of_nodup hnd ha
  have h2 := find?_eq_some_of_nodup hnd hb
  rw [h1] at h2
  injection h2 with h3
  exact congrArg Prod.snd h3

theorem lookupD_eq_of_mem {α : Type} {l : List (String × α)} {k : String} {a : α} (d : α)
    (hnd : (l.map Prod.fst).Nodup) (hmem : (k, a) ∈ l) : lookupD l k d = a := by
  unfold lookupD
  rw [find?_eq_some_of_nodup hnd hmem]

theorem userDiffFor_total (previous : Snapshot) (username : String) (ud : UserData) :
    (userDiffFor previous username ud).total_minutes =
      ((ud.games.filter (posDelta previous.isEmpty (lookupD previous username {}).games)).map
        (gameDelta previous.isEmpty (lookupD previous username {}).games)).sum := by
  rw [userDiffFor, foldl_processGame_total]
  simp

theorem userDiffFor_games_played (previous : Snapshot) (username : String) (ud : UserData) :
    (userDiffFor previous username ud).games_played =
      (ud.games.filter (posDelta previous.isEmpty (lookupD previous username {}).games)).length := by
  rw [userDiffFor, foldl_processGame_games_played]
  simp

theorem userDiffFor_new_games (previous : Snapshot) (username : String) (ud : UserData) :
    (userDiffFor previous username ud).new_games =
      (ud.games.filter
        (fun x => ((lookupD previous username {}).games.find? (fun p => p.1 == x.1)).isNone)).map
          Prod.fst := by
  rw [userDiffFor, foldl_processGame_new_games]
  rfl

theorem userDiffFor_achievements (previous : Snapshot) (username : String) (ud : UserData) :
    (userDiffFor previous username ud).achievements =
      (ud.games.filter
        (fun x => posDelta previous.isEmpty (lookupD previous username {}).games x &&
          !(newAchievements (lookupD previous username {}).games x).isEmpty)).map
            (fun x => (x.1, newAchievements (lookupD previous username {}).games x)) := by
  rw [userDiffFor, foldl_processGame_achievements]
  rfl

/-! ## C4: monotonic delta -/

/-- The old-snapshot baseline playtime the code subtracts: user record,
`games` mapping and game record all default to empty when absent, and
`playtime_forever` defaults to `0` (lines 51–60 of `diff.py`). -/
def oldPlaytime (previous : Snapshot) (u g : String) : Int :=
  (lookupD (lookupD previous u {}).games g {}).playtime_forever

/-- C4: when the first-run fallback does not apply to a game of a user of
the new snapshot, a positive forever-playtime difference is recorded in
`played` exactly as that difference, and a zero or negative difference
leaves no entry for the game in `played`. -/
theorem C4_monotonic_delta (previous current : Snapshot) (u g : String)
    (ud : UserData) (gd : GameData)
    (hmem : (u, ud) ∈ current) (hg : (g, gd) ∈ ud.games)
    (hnd : (ud.games.map Prod.fst).Nodup)
    (hnofb : ¬(previous.isEmpty = true ∧ 0 < gd.playtime_2weeks)) :
    ∃ df, (u, df) ∈ calculate_daily_diff previous current ∧
      (0 < gd.playtime_forever - oldPlaytime previous u g →
        df.played.find? (fun q => q.1 == g) =
          some (g, gd.playtime_forever - oldPlaytime previous u g)) ∧
      (gd.playtime_forever - oldPlaytime previous u g ≤ 0 →
        ∀ m : Int, (g, m) ∉ df.played) := by
  refine ⟨userDiffFor previous u ud, ?_, ?_, ?_⟩
  · rw [calculate_daily_diff_eq_map]
    exact List.mem_map.mpr ⟨(u, ud), hmem, rfl⟩
  · intro hpos
    rw [userDiffFor_played]
    set pg := (lookupD previous u ({} : UserData)).games with hpgdef
    have hdelta : gameDelta previous.isEmpty pg (g, gd) =
        gd.playtime_forever - oldPlaytime previous u g := by
      rw [gameDelta, if_neg hnofb]
      rfl
    have hposd : posDelta previous.isEmpty pg (g, gd) = true := by
      simp [posDelta, hdelta, hpos]
    have hkeys :
        (((ud.games.filter (posDelta previous.isEmpty pg)).map
          (fun x => (x.1, gameDelta previous.isEmpty pg x))).map Prod.fst).Nodup := by
      rw [List.map_map]
      exact filter_keys_nodup _ hnd
    refine find?_eq_some_of_nodup hkeys ?_
    have hmf : (g, gd) ∈ ud.games.filter (posDelta previous.isEmpty pg) :=
      List.mem_filter.mpr ⟨hg, hposd⟩
    have hmm : (g, gameDelta previous.isEmpty pg (g, gd)) ∈
        (ud.games.filter (posDelta previous.isEmpty pg)).map
          (fun x => (x.1, gameDelta previous.isEmpty pg x)) :=
      List.mem_map.mpr ⟨(g, gd), hmf, rfl⟩
    rwa [hdelta] at hmm
  · intro hle m hcontra
    rw [userDiffFor_played] at hcontra
    set pg := (lookupD previous u ({} : UserData)).games with hpgdef
    obtain ⟨x, hxf, hxeq⟩ := List.mem_map.mp hcontra
    have hx1 : x.1 = g := congrArg Prod.fst hxeq
    have hxl : x ∈ ud.games := (List.mem_filter.mp hxf).1
    have hxd : posDelta previous.isEmpty pg x = true := (List.mem_filter.mp hxf).2
    have hxg : (g, x.2) ∈ ud.games := by rwa [← hx1, Prod.mk.eta]
    have hx2 : x.2 = gd := mem_unique_of_nodup hnd hxg hg
    have hxe : x = (g, gd) := by rw [← hx1, ← hx2]
    rw [hxe] at hxd
    have : gameDelta previous.isEmpty pg (g, gd) =
        gd.playtime_forever - oldPlaytime previous u g := by
      rw [gameDelta, if_neg hnofb]
      rfl
    rw [posDelta, this] at hxd
    simp at hxd
    omega

def oldC4 : Snapshot := [("alice", ⟨[("Chess", ⟨100, 0, []⟩)]⟩)]
def newC4 : Snapshot := [("alice", ⟨[("Chess", ⟨130, 0, []⟩)]⟩)]

/-- C4 witness. -/
theorem C4_monotonic_delta_witness :
    ∃ df, ("alice", df) ∈ calculate_daily_diff oldC4 newC4 ∧
      df.played.find? (fun q => q.1 == "Chess") = some ("Chess", 30) := by
  obtain ⟨df, h1, h2, h3⟩ :=
    C4_monotonic_delta oldC4 newC4 "alice" "Chess" ⟨[("Chess", ⟨130, 0, []⟩)]⟩ ⟨130, 0, []⟩
      (by decide) (by decide) (by decide) (by decide)
  refine ⟨df, h1, ?_⟩
  have he : (130 : Int) - oldPlaytime oldC4 "alice" "Chess" = 30 := by decide
  have := h2 (by decide)
  rwa [show (⟨130, 0, []⟩ : GameData).playtime_forever = (130 : Int) from rfl, he] at this

/-! ## C5: diff of a snapshot with itself -/

/-- Well-formedness carried by every Python dict-of-dicts snapshot: unique
usernames, and unique game names within each user. -/
def SnapshotWF (s : Snapshot) : Prop :=
  (s.map Prod.fst).Nodup ∧ ∀ p ∈ s, (p.2.games.map Prod.fst).Nodup

instance (s : Snapshot) : Decidable (SnapshotWF s) := by
  unfold SnapshotWF
  infer_instance

/-- C5: `calculate_daily_diff(S, S)` gives every user `total_minutes = 0`
and an empty `played` mapping. -/
theorem C5_diff_self (S : Snapshot) (hwf : SnapshotWF S) :
    ∀ p ∈ calculate_daily_diff S S, p.2.total_minutes = 0 ∧ p.2.played = [] := by
  intro p hp
  rw [calculate_daily_diff_eq_map] at hp
  obtain ⟨q, hq, rfl⟩ := List.mem_map.mp hp
  have hqmem : (q.1, q.2) ∈ S := by rwa [Prod.mk.eta]
  have hunodup : (q.2.games.map Prod.fst).Nodup := hwf.2 q hq
  have hlu : lookupD S q.1 ({} : UserData) = q.2 := lookupD_eq_of_mem _ hwf.1 hqmem
  have hne : S.isEmpty = false := by
    cases S with
    | nil => simp at hq
    | cons a t => rfl
  have hfilter :
      q.2.games.filter (posDelta S.isEmpty (lookupD S q.1 ({} : UserData)).games) = [] := by
    rw [List.filter_eq_nil_iff]
    intro x hx
    have hxg : (x.1, x.2) ∈ q.2.games := by rwa [Prod.mk.eta]
    have hlux : lookupD q.2.games x.1 ({} : GameData) = x.2 :=
      lookupD_eq_of_mem _ hunodup hxg
    simp [posDelta, gameDelta, hne, hlu, hlux]
  constructor
  · rw [userDiffFor_total, hfilter]
    rfl
  · rw [userDiffFor_played, hfilter]
    rfl

def snapC5 : Snapshot := [("alice", ⟨[("Chess", ⟨100, 45, ["a1"]⟩)]⟩)]

/-- C5 witness. -/
theorem C5_diff_self_witness :
    ("alice", userDiffFor snapC5 "alice" ⟨[("Chess", ⟨100, 45, ["a1"]⟩)]⟩).2.total_minutes = 0 ∧
    ("alice", userDiffFor snapC5 "alice" ⟨[("Chess", ⟨100, 45, ["a1"]⟩)]⟩).2.played = [] :=
  C5_diff_self snapC5 (by decide)
    ("alice", userDiffFor snapC5 "alice" ⟨[("Chess", ⟨100, 45, ["a1"]⟩)]⟩) (by decide)

/-! ## C6: new-game detection -/

/-- C6: a game of a user of the new snapshot that is absent from that
user's old games mapping is listed in the user's `new_games`, whatever the
sign of its delta. -/
theorem C6_new_game_detection (previous current : Snapshot) (u g : String)
    (ud : UserData) (gd : GameData)
    (hmem : (u, ud) ∈ current) (hg : (g, gd) ∈ ud.games)
    (habs : g ∉ (lookupD previous u ({} : UserData)).games.map Prod.fst) :
    ∃ df, (u, df) ∈ calculate_daily_diff previous current ∧ g ∈ df.new_games := by
  refine ⟨userDiffFor previous u ud, ?_, ?_⟩
  · rw [calculate_daily_diff_eq_map]
    exact List.mem_map.mpr ⟨(u, ud), hmem, rfl⟩
  · rw [userDiffFor_new_games]
    have hnone :
        ((lookupD previous u ({} : UserData)).games.find? (fun p => p.1 == (g, gd).1)).isNone
          = true := by
      rw [Option.isNone_iff_eq_none, List.find?_eq_none]
      intro x hx hbeq
      refine habs ?_
      have hx1 : x.1 = g := by simpa using hbeq
      rw [← hx1]
      exact List.mem_map.mpr ⟨x, hx, rfl⟩
    exact List.mem_map.mpr ⟨(g, gd), List.mem_filter.mpr ⟨hg, hnone⟩, rfl⟩

/-- C6 witness. -/
theorem C6_new_game_detection_witness :
    ∃ df, ("alice", df) ∈
        calculate_daily_diff [("alice", ⟨[]⟩)] [("alice", ⟨[("Go", ⟨0, 0, []⟩)]⟩)] ∧
      "Go" ∈ df.new_games :=
  C6_new_game_detection [("alice", ⟨[]⟩)] [("alice", ⟨[("Go", ⟨0, 0, []⟩)]⟩)]
    "alice" "Go" ⟨[("Go", ⟨0, 0, []⟩)]⟩ ⟨0, 0, []⟩ (by decide) (by decide) (by decide)

/-! ## C9: DailyDiff keys and inactive users -/

/-- C9: the DailyDiff has exactly the new snapshot's usernames as keys, in
order; a user all of whose games have non-positive deltas still gets an
entry with empty `played`, zero totals and empty `achievements`; a user
present only in the old snapshot gets no entry. -/
theorem C9_keys_and_inactive_users (previous current : Snapshot) :
    (calculate_daily_diff previous current).map Prod.fst = current.map Prod.fst ∧
    (∀ u ud, (u, ud) ∈ current →
      (∀ x ∈ ud.games,
        gameDelta previous.isEmpty (lookupD previous u ({} : UserData)).games x ≤ 0) →
      (u, userDiffFor previous u ud) ∈ calculate_daily_diff previous current ∧
        (userDiffFor previous u ud).played = [] ∧
        (userDiffFor previous u ud).total_minutes = 0 ∧
        (userDiffFor previous u ud).games_played = 0 ∧
        (userDiffFor previous u ud).achievements = []) ∧
    (∀ u, u ∉ current.map Prod.fst →
      u ∉ (calculate_daily_diff previous current).map Prod.fst) := by
  have hkeys : (calculate_daily_diff previous current).map Prod.fst = current.map Prod.fst := by
    rw [calculate_daily_diff_eq_map, List.map_map]
    rfl
  refine ⟨hkeys, ?_, ?_⟩
  · intro u ud hmem hzero
    have hfilter :
        ud.games.filter (posDelta previous.isEmpty (lookupD previous u ({} : UserData)).games)
          = [] := by
      rw [List.filter_eq_nil_iff]
      intro x hx
      simp [posDelta]
      exact hzero x hx
    have hfilter2 :
        ud.games.filter
          (fun x => posDelta previous.isEmpty (lookupD previous u ({} : UserData)).games x &&
            !(newAchievements (lookupD previous u ({} : UserData)).games x).isEmpty) = [] := by
      rw [List.filter_eq_nil_iff]
      intro x hx
      have : ¬ (0 : Int) <
          gameDelta previous.isEmpty (lookupD previous u ({} : UserData)).games x := by
        exact not_lt.mpr (hzero x hx)
      simp [posDelta, this]
    refine ⟨?_, ?_, ?_, ?_, ?_⟩
    · rw [calculate_daily_diff_eq_map]
      exact List.mem_map.mpr ⟨(u, ud), hmem, rfl⟩
    · rw [userDiffFor_played, hfilter]
      rfl
    · rw [userDiffFor_total, hfilter]
      rfl
    · rw [userDiffFor_games_played, hfilter]
      rfl
    · rw [userDiffFor_achievements, hfilter2]
      rfl
  · intro u hu
    rwa [hkeys]

/-- C9 witness. -/
theorem C9_keys_and_inactive_users_witness :
    ("bob", userDiffFor [("bob", ⟨[("Go", ⟨7, 0, []⟩)]⟩)] "bob" ⟨[("Go", ⟨7, 0, []⟩)]⟩) ∈
        calculate_daily_diff [("bob", ⟨[("Go", ⟨7, 0, []⟩)]⟩)] [("bob", ⟨[("Go", ⟨7, 0, []⟩)]⟩)] ∧
      (userDiffFor [("bob", ⟨[("Go", ⟨7, 0, []⟩)]⟩)] "bob" ⟨[("Go", ⟨7, 0, []⟩)]⟩).played = [] ∧
      (userDiffFor [("bob", ⟨[("Go", ⟨7, 0, []⟩)]⟩)] "bob"
        ⟨[("Go", ⟨7, 0, []⟩)]⟩).total_minutes = 0 ∧
      (userDiffFor [("bob", ⟨[("Go", ⟨7, 0, []⟩)]⟩)] "bob"
        ⟨[("Go", ⟨7, 0, []⟩)]⟩).games_played = 0 ∧
      (userDiffFor [("bob", ⟨[("Go", ⟨7, 0, []⟩)]⟩)] "bob"
        ⟨[("Go", ⟨7, 0, []⟩)]⟩).achievements = [] :=
  (C9_keys_and_inactive_users [("bob", ⟨[("Go", ⟨7, 0, []⟩)]⟩)]
      [("bob", ⟨[("Go", ⟨7, 0, []⟩)]⟩)]).2.1
    "bob" ⟨[("Go", ⟨7, 0, []⟩)]⟩ (by decide) (by decide)

/-- C7: `total_group_minutes` equals the sum of `total_minutes` over all
users of the daily diff. -/
theorem C7_total_group_minutes (daily_diff : DailyDiff) :
    (calculate_group_stats daily_diff).total_group_minutes =
      (daily_diff.map (fun p => p.2.total_minutes)).sum := by
  simp [calculate_group_stats, foldl_add_total]

/-! ## Sessions: the flattened (user, game, minutes) triples -/

/-- All `(username, (game, minutes))` triples of a daily diff, in the
iteration order of the nested loops of `calculate_group_stats`. -/
def sessions : DailyDiff → List (String × String × Int)
  | [] => []
  | p :: rest => p.2.played.map (fun q => (p.1, q)) ++ sessions rest

theorem mem_sessions_iff (s : String × String × Int) :
    ∀ (d : DailyDiff), s ∈ sessions d ↔ ∃ p ∈ d, ∃ q ∈ p.2.played, s = (p.1, q)
  | [] => by simp [sessions]
  | p :: rest => by
    simp only [sessions, List.mem_append, List.mem_map, mem_sessions_iff s rest,
      List.mem_cons]
    constructor
    · rintro (⟨q, hq, rfl⟩ | ⟨r, hr, q, hq, rfl⟩)
      · exact ⟨p, Or.inl rfl, q, hq, rfl⟩
      · exact ⟨r, Or.inr hr, q, hq, rfl⟩
    · rintro ⟨r, hr | hr, q, hq, rfl⟩
      · subst hr
        exact Or.inl ⟨q, hq, rfl⟩
      · exact Or.inr ⟨r, hr, q, hq, rfl⟩

theorem longestOf_eq_foldl_sessions :
    ∀ (d : DailyDiff) (acc : Int × Option SessionInfo),
      d.foldl
        (fun acc p => p.2.played.foldl (fun acc2 q => sessionStep acc2 (p.1, q.1, q.2)) acc)
        acc = (sessions d).foldl sessionStep acc
  | [], _ => rfl
  | p :: rest, acc => by
    rw [List.foldl_cons, longestOf_eq_foldl_sessions rest, sessions,
      List.foldl_append, List.foldl_map]

theorem sessionStep_mk (m : Int) (cur : Option SessionInfo) (s : String × String × Int) :
    sessionStep (m, cur) s =
      if m < s.2.2 then (s.2.2, some ⟨s.1, s.2.1, s.2.2⟩) else (m, cur) := rfl

theorem foldl_sessionStep_all_le :
    ∀ (l : List (String × String × Int)) (m : Int) (cur : Option SessionInfo),
      (∀ s ∈ l, s.2.2 ≤ m) → l.foldl sessionStep (m, cur) = (m, cur)
  | [], _, _, _ => rfl
  | s :: l, m, cur, h => by
    rw [List.foldl_cons, sessionStep_mk,
      if_neg (not_lt.mpr (h s (List.mem_cons_self s l)))]
    exact foldl_sessionStep_all_le l m cur (fun t ht => h t (List.mem_cons_of_mem s ht))

theorem foldl_sessionStep_first_max :
    ∀ (l : List (String × String × Int)) (m : Int) (cur : Option SessionInfo),
      (∃ s ∈ l, m < s.2.2) →
      ∃ pre s post, l = pre ++ s :: post ∧
        l.foldl sessionStep (m, cur) = (s.2.2, some ⟨s.1, s.2.1, s.2.2⟩) ∧
        m < s.2.2 ∧ (∀ t ∈ pre, t.2.2 < s.2.2) ∧ (∀ t ∈ post, t.2.2 ≤ s.2.2)
  | [], m, cur, hex => by simp at hex
  | h :: l, m, cur, hex => by
    rw [List.foldl_cons, sessionStep_mk]
    by_cases hh : m < h.2.2
    · rw [if_pos hh]
      by_cases hex2 : ∃ s ∈ l, h.2.2 < s.2.2
      · obtain ⟨pre, s, post, hsplit, hfold, hlt, hpre, hpost⟩ :=
          foldl_sessionStep_first_max l h.2.2 (some ⟨h.1, h.2.1, h.2.2⟩) hex2
        refine ⟨h :: pre, s, post, by rw [hsplit]; rfl, hfold, lt_trans hh hlt, ?_, hpost⟩
        intro t ht
        rcases List.mem_cons.mp ht with rfl | ht
        · exact hlt
        · exact hpre t ht
      · push_neg at hex2
        rw [foldl_sessionStep_all_le l h.2.2 _ hex2]
        exact ⟨[], h, l, rfl, rfl, hh, by simp, hex2⟩
    · rw [if_neg hh]
      have hex3 : ∃ s ∈ l, m < s.2.2 := by
        obtain ⟨s, hs, hlt⟩ := hex
        rcases List.mem_cons.mp hs with rfl | hs
        · exact absurd hlt hh
        · exact ⟨s, hs, hlt⟩
      obtain ⟨pre, s, post, hsplit, hfold, hlt, hpre, hpost⟩ :=
        foldl_sessionStep_first_max l m cur hex3
      refine ⟨h :: pre, s, post, by rw [hsplit]; rfl, hfold, hlt, ?_, hpost⟩
      intro t ht
      rcases List.mem_cons.mp ht with rfl | ht
      · exact lt_of_le_of_lt (not_lt.mp hh) hlt
      · exact hpre t ht

/-! ## C10: longest session -/

def dC10 : DailyDiff := [("u", { played := [("g", 0)] })]

/-- C10 counterexample: on a DailyDiff whose single `played` entry has `0`
minutes, `longest_session` is `none` even though a `played` entry exists,
because only strictly positive minutes can beat the initial
`longest_minutes = 0`.  This falsifies the claimed "none iff no entry in
played". -/
theorem C10_counterexample :
    (calculate_group_stats dC10).longest_session = none ∧
    (lookupD dC10 "u" {}).played ≠ [] := by
  exact ⟨rfl, by decide⟩

/-- C10 (amended): `longest_session` is `none` iff no `played` entry has
strictly positive minutes; otherwise it is some triple occurring in the
flattened session list whose minutes are strictly greater than every
earlier entry and at least every later entry (the maximum, ties broken by
first encounter, and necessarily positive). -/
theorem C10_longest_session (d : DailyDiff) :
    ((calculate_group_stats d).longest_session = none ↔
      ∀ p ∈ d, ∀ q ∈ p.2.played, q.2 ≤ 0) ∧
    (∀ info, (calculate_group_stats d).longest_session = some info →
      0 < info.minutes ∧
      ∃ pre post, sessions d = pre ++ (info.player, info.game, info.minutes) :: post ∧
        (∀ t ∈ pre, t.2.2 < info.minutes) ∧ (∀ t ∈ post, t.2.2 ≤ info.minutes)) := by
  have hls : (calculate_group_stats d).longest_session =
      ((sessions d).foldl sessionStep (0, none)).2 := by
    simp only [calculate_group_stats, longestOf, longestOf_eq_foldl_sessions]
  constructor
  · rw [hls]
    constructor
    · intro hnone p hp q hq
      by_contra hpos
      push_neg at hpos
      have hex : ∃ s ∈ sessions d, (0 : Int) < s.2.2 := by
        refine ⟨(p.1, q), ?_, hpos⟩
        exact (mem_sessions_iff (p.1, q) d).mpr ⟨p, hp, q, hq, rfl⟩
      obtain ⟨pre, s, post, _, hfold, _, _, _⟩ :=
        foldl_sessionStep_first_max (sessions d) 0 none hex
      rw [hfold] at hnone
      simp at hnone
    · intro hle
      have hall : ∀ s ∈ sessions d, s.2.2 ≤ (0 : Int) := by
        intro s hs
        obtain ⟨p, hp, q, hq, rfl⟩ := (mem_sessions_iff s d).mp hs
        exact hle p hp q hq
      rw [foldl_sessionStep_all_le (sessions d) 0 none hall]
  · intro info hsome
    rw [hls] at hsome
    by_cases hex : ∃ s ∈ sessions d, (0 : Int) < s.2.2
    · obtain ⟨pre, s, post, hsplit, hfold, hlt, hpre, hpost⟩ :=
        foldl_sessionStep_first_max (sessions d) 0 none hex
      rw [hfold] at hsome
      have hinfo : info = ⟨s.1, s.2.1, s.2.2⟩ := by
        injection hsome with h
        exact h.symm
      subst hinfo
      exact ⟨hlt, pre, post, hsplit, hpre, hpost⟩
    · push_neg at hex
      rw [foldl_sessionStep_all_le (sessions d) 0 none hex] at hsome
      simp at hsome

def dC10w : DailyDiff :=
  [("ann", { played := [("g", 5)], total_minutes := 5, games_played := 1 })]

/-- C10 witness. -/
theorem C10_longest_session_witness :
    0 < (5 : Int) ∧
    ∃ pre post, sessions dC10w = pre ++ ("ann", "g", 5) :: post ∧
      (∀ t ∈ pre, t.2.2 < (5 : Int)) ∧ (∀ t ∈ post, t.2.2 ≤ (5 : Int)) :=
  (C10_longest_session dC10w).2 ⟨"ann", "g", 5⟩ rfl

/-! ## C8: the per-game rollup and co-op detection -/

/-- One step of the rollup: fold `addPlayed` over the flattened sessions. -/
def aggStep (agg : List (String × GameAgg)) (s : String × String × Int) :
    List (String × GameAgg) :=
  addPlayed s.1 agg s.2

/-- `all_games_played[g]`, as an Option. -/
def findA (agg : List (String × GameAgg)) (g : String) : Option GameAgg :=
  (agg.find? (fun p => p.1 == g)).map Prod.snd

/-- Usernames of the sessions for game `g`, in order. -/
def playersIn (l : List (String × String × Int)) (g : String) : List String :=
  (l.filter (fun s => s.2.1 == g)).map Prod.fst

/-- Total minutes of the sessions for game `g`. -/
def minutesIn (l : List (String × String × Int)) (g : String) : Int :=
  ((l.filter (fun s => s.2.1 == g)).map (fun s => s.2.2)).sum

theorem gamesAggOf_eq_foldl_sessions :
    ∀ (d : DailyDiff) (agg : List (String × GameAgg)),
      d.foldl (fun agg p => p.2.played.foldl (fun agg2 q => addPlayed p.1 agg2 q) agg) agg
        = (sessions d).foldl aggStep agg
  | [], _ => rfl
  | p :: rest, agg => by
    rw [List.foldl_cons, gamesAggOf_eq_foldl_sessions rest, sessions,
      List.foldl_append, List.foldl_map]
    rfl

theorem find?_map_update (f : GameAgg → GameAgg) (k g : String) :
    ∀ (agg : List (String × GameAgg)),
      (agg.map (fun r => if r.1 == k then (r.1, f r.2) else r)).find? (fun r => r.1 == g) =
        (agg.find? (fun r => r.1 == g)).map (fun r => if r.1 == k then (r.1, f r.2) else r)
  | [] => rfl
  | p :: t => by
    have hfst : (if p.1 == k then (p.1, f p.2) else p).1 = p.1 := by
      split <;> rfl
    by_cases hpg : (p.1 == g) = true
    · have h1 : ((if p.1 == k then (p.1, f p.2) else p) ::
            t.map (fun r => if r.1 == k then (r.1, f r.2) else r)).find? (fun r => r.1 == g)
          = some (if p.1 == k then (p.1, f p.2) else p) :=
        List.find?_cons_of_pos _ (by rw [hfst]; exact hpg)
      have h2 : (p :: t).find? (fun r => r.1 == g) = some p :=
        List.find?_cons_of_pos _ hpg
      rw [List.map_cons, h1, h2]
      rfl
    · have h1 : ((if p.1 == k then (p.1, f p.2) else p) ::
            t.map (fun r => if r.1 == k then (r.1, f r.2) else r)).find? (fun r => r.1 == g)
          = (t.map (fun r => if r.1 == k then (r.1, f r.2) else r)).find? (fun r => r.1 == g) :=
        List.find?_cons_of_neg _ (by rw [hfst]; exact hpg)
      have h2 : (p :: t).find? (fun r => r.1 == g) = t.find? (fun r => r.1 == g) :=
        List.find?_cons_of_neg _ hpg
      rw [List.map_cons, h1, h2]
      exact find?_map_update f k g t

theorem findA_addPlayed_other (u : String) (agg : List (String × GameAgg))
    (q : String × Int) (g : String) (hne : ¬ q.1 = g) :
    findA (addPlayed u agg q) g = findA agg g := by
  unfold addPlayed findA
  split
  · rw [find?_map_update (fun a => ⟨a.players ++ [u], a.total_minutes + q.2⟩) q.1 g agg]
    cases hf : agg.find? (fun r => r.1 == g) with
    | none => rfl
    | some p =>
      have hp := List.find?_some hf
      have hpg : p.1 = g := by simpa using hp
      have hne2 : ¬ p.1 = q.1 := by
        rw [hpg]
        exact fun hc => hne hc.symm
      simp [hne2]
  · rw [List.find?_append]
    cases hf : agg.find? (fun r => r.1 == g) with
    | none =>
      have : ([(q.1, GameAgg.mk [u] q.2)].find? (fun r => r.1 == g)) = none := by
        rw [List.find?_eq_none]
        intro x hx
        simp at hx
        subst hx
        simpa using hne
      rw [this]
      rfl
    | some p => rfl

theorem findA_addPlayed_same (u : String) (agg : List (String × GameAgg))
    (q : String × Int) :
    findA (addPlayed u agg q) q.1 =
      match findA agg q.1 with
      | some a => some ⟨a.players ++ [u], a.total_minutes + q.2⟩
      | none => some ⟨[u], q.2⟩ := by
  unfold addPlayed findA
  by_cases hany : agg.any (fun r => r.1 == q.1) = true
  · rw [if_pos hany,
      find?_map_update (fun a => ⟨a.players ++ [u], a.total_minutes + q.2⟩) q.1 q.1 agg]
    cases hf : agg.find? (fun r => r.1 == q.1) with
    | none =>
      exfalso
      obtain ⟨x, hx, hpx⟩ := List.any_eq_true.mp hany
      exact (List.find?_eq_none.mp hf x hx) hpx
    | some p =>
      have hp := List.find?_some hf
      have hpq : p.1 = q.1 := by simpa using hp
      simp [hpq]
  · rw [if_neg hany]
    have hnone : agg.find? (fun r => r.1 == q.1) = none := by
      rw [List.find?_eq_none]
      intro x hx hpx
      exact hany (List.any_eq_true.mpr ⟨x, hx, hpx⟩)
    rw [List.find?_append, hnone]
    simp

/-- What the rollup fold produces at key `g` after consuming the session
list `l`, as a function of the accumulator's entry at `g`. -/
def aggExpected (l : List (String × String × Int)) (g : String) :
    Option GameAgg → Option GameAgg
  | some a => some ⟨a.players ++ playersIn l g, a.total_minutes + minutesIn l g⟩
  | none =>
    if l.any (fun s => s.2.1 == g) then some ⟨playersIn l g, minutesIn l g⟩ else none

theorem playersIn_cons (s : String × String × Int) (l : List (String × String × Int))
    (g : String) :
    playersIn (s :: l) g = (if (s.2.1 == g) = true then [s.1] else []) ++ playersIn l g := by
  simp only [playersIn, List.filter_cons]
  split <;> simp

theorem minutesIn_cons (s : String × String × Int) (l : List (String × String × Int))
    (g : String) :
    minutesIn (s :: l) g = (if (s.2.1 == g) = true then s.2.2 else 0) + minutesIn l g := by
  simp only [minutesIn, List.filter_cons]
  split <;> simp

theorem findA_foldl_aggStep (g : String) :
    ∀ (l : List (String × String × Int)) (agg : List (String × GameAgg)),
      findA (l.foldl aggStep agg) g = aggExpected l g (findA agg g)
  | [], agg => by
    cases h : findA agg g <;> simp [aggExpected, h, playersIn, minutesIn]
  | s :: l, agg => by
    rw [List.foldl_cons, findA_foldl_aggStep g l (aggStep agg s)]
    by_cases hsg : s.2.1 = g
    · subst hsg
      have hsame := findA_addPlayed_same s.1 agg s.2
      cases h : findA agg s.2.1 with
      | some a =>
        have hstep : findA (aggStep agg s) s.2.1 =
            some ⟨a.players ++ [s.1], a.total_minutes + s.2.2⟩ := by
          rw [aggStep, hsame, h]
        rw [hstep]
        simp [aggExpected, playersIn_cons, minutesIn_cons, List.append_assoc, add_assoc]
      | none =>
        have hstep : findA (aggStep agg s) s.2.1 = some ⟨[s.1], s.2.2⟩ := by
          rw [aggStep, hsame, h]
        rw [hstep]
        simp [aggExpected, playersIn_cons, minutesIn_cons, List.any_cons]
    · have hstep : findA (aggStep agg s) g = findA agg g :=
        findA_addPlayed_other s.1 agg s.2 g hsg
      rw [hstep]
      have hbe : (s.2.1 == g) = false := by
        simp [hsg]
      cases h : findA agg g with
      | some a => simp [aggExpected, playersIn_cons, minutesIn_cons, hbe]
      | none =>
        simp only [aggExpected, List.any_cons, hbe, Bool.false_or, playersIn_cons,
          minutesIn_cons]
        simp [hbe]

theorem addPlayed_keys (u : String) (agg : List (String × GameAgg)) (q : String × Int)
    (hnd : (agg.map Prod.fst).Nodup) : ((addPlayed u agg q).map Prod.fst).Nodup := by
  unfold addPlayed
  by_cases hany : agg.any (fun r => r.1 == q.1) = true
  · rw [if_pos hany]
    have hkeq : (agg.map (fun r =>
        if r.1 == q.1 then (r.1, GameAgg.mk (r.2.players ++ [u]) (r.2.total_minutes + q.2))
        else r)).map Prod.fst = agg.map Prod.fst := by
      rw [List.map_map]
      refine List.map_congr_left ?_
      intro r _
      simp only [Function.comp]
      split <;> rfl
    rw [hkeq]
    exact hnd
  · rw [if_neg hany, List.map_append, List.nodup_append]
    refine ⟨hnd, by simp, ?_⟩
    intro x hx1 hx2
    simp at hx2
    subst hx2
    obtain ⟨p, hp, hpeq⟩ := List.mem_map.mp hx1
    exact hany (List.any_eq_true.mpr ⟨p, hp, by simp [hpeq]⟩)

theorem foldl_aggStep_keys :
    ∀ (l : List (String × String × Int)) (agg : List (String × GameAgg)),
      (agg.map Prod.fst).Nodup → ((l.foldl aggStep agg).map Prod.fst).Nodup
  | [], _, h => h
  | s :: l, agg, h => foldl_aggStep_keys l _ (addPlayed_keys s.1 agg s.2 h)

theorem findA_eq_some_of_mem {agg : List (String × GameAgg)} {g : String} {a : GameAgg}
    (hnd : (agg.map Prod.fst).Nodup) (hmem : (g, a) ∈ agg) : findA agg g = some a := by
  unfold findA
  rw [find?_eq_some_of_nodup hnd hmem]
  rfl

theorem mem_of_findA_eq_some {agg : List (String × GameAgg)} {g : String} {a : GameAgg}
    (h : findA agg g = some a) : (g, a) ∈ agg := by
  unfold findA at h
  cases hf : agg.find? (fun r => r.1 == g) with
  | none =>
    rw [hf] at h
    simp at h
  | some p =>
    rw [hf] at h
    have hp := List.find?_some hf
    have hp1 : p.1 = g := by simpa using hp
    have hp2 : p.2 = a := by simpa using h
    have hpm := List.mem_of_find?_eq_some hf
    have hpe : p = (g, a) := by
      rw [← hp1, ← hp2]
    rwa [hpe] at hpm

/-- Does the user's `played` mapping contain game `g`? -/
def hasGame (g : String) (ud : UserDiff) : Bool :=
  ud.played.any (fun q => q.1 == g)

/-- The users (in diff order) whose `played` mapping contains `g`. -/
def playersOfGame (d : DailyDiff) (g : String) : List String :=
  (d.filter (fun p => hasGame g p.2)).map Prod.fst

/-- The sum over those users of their recorded delta for `g`. -/
def minutesOfGame (d : DailyDiff) (g : String) : Int :=
  ((d.filter (fun p => hasGame g p.2)).map (fun p => lookupD p.2.played g 0)).sum

theorem filter_key_eq_of_nodup {α : Type} (g : String) :
    ∀ {l : List (String × α)}, (l.map Prod.fst).Nodup →
      l.filter (fun q => q.1 == g) =
        (match l.find? (fun q => q.1 == g) with
          | some x => [x]
          | none => ([] : List (String × α)))
  | [], _ => rfl
  | p :: t, hnd => by
    simp only [List.map_cons, List.nodup_cons] at hnd
    by_cases hpg : (p.1 == g) = true
    · have hpe : p.1 = g := by simpa using hpg
      have hft : t.filter (fun q => q.1 == g) = [] := by
        rw [List.filter_eq_nil_iff]
        intro x hx hxg
        have hxe : x.1 = g := by simpa using hxg
        exact hnd.1 (by
          rw [hpe, ← hxe]
          exact List.mem_map.mpr ⟨x, hx, rfl⟩)
      have hc : (p :: t).filter (fun q => q.1 == g) = p :: t.filter (fun q => q.1 == g) :=
        List.filter_cons_of_pos hpg
      have hd : (p :: t).find? (fun q => q.1 == g) = some p :=
        List.find?_cons_of_pos _ hpg
      rw [hc, hft, hd]
    · have hc : (p :: t).filter (fun q => q.1 == g) = t.filter (fun q => q.1 == g) :=
        List.filter_cons_of_neg (by simpa using hpg)
      rw [hc]
      have hstep : (p :: t).find? (fun q => q.1 == g) = t.find? (fun q => q.1 == g) :=
        List.find?_cons_of_neg _ hpg
      rw [hstep]
      exact filter_key_eq_of_nodup g hnd.2

/-- Under unique `played` keys per user, the session-level player and minute
rollups for `g` coincide with the diff-level ones. -/
theorem sessions_rollup_eq (g : String) :
    ∀ (d : DailyDiff), (∀ p ∈ d, (p.2.played.map Prod.fst).Nodup) →
      playersIn (sessions d) g = playersOfGame d g ∧
        minutesIn (sessions d) g = minutesOfGame d g
  | [], _ => ⟨rfl, rfl⟩
  | p :: rest, hwf => by
    have hnd := hwf p (List.mem_cons_self p rest)
    have ih := sessions_rollup_eq g rest (fun r hr => hwf r (List.mem_cons_of_mem p hr))
    have hfk := filter_key_eq_of_nodup g hnd
    have hhead : (p.2.played.map (fun q => (p.1, q))).filter (fun s => s.2.1 == g) =
        (p.2.played.filter (fun q => q.1 == g)).map (fun q => (p.1, q)) := by
      rw [List.filter_map]
      rfl
    cases hf : p.2.played.find? (fun q => q.1 == g) with
    | some x =>
      have hflt : p.2.played.filter (fun q => q.1 == g) = [x] := by
        rw [hfk, hf]
      have hhas : hasGame g p.2 = true := by
        rw [hasGame, List.any_eq_true]
        have hxp := List.find?_some hf
        exact ⟨x, List.mem_of_find?_eq_some hf, hxp⟩
      have hlu : lookupD p.2.played g 0 = x.2 := by
        rw [lookupD, hf]
      constructor
      · simp only [sessions, playersIn, List.filter_append, List.map_append, hhead, hflt]
        simp only [playersIn] at ih
        rw [ih.1]
        simp [playersOfGame, List.filter_cons, hhas]
      · simp only [sessions, minutesIn, List.filter_append, List.map_append, hhead, hflt,
          List.sum_append]
        simp only [minutesIn] at ih
        rw [ih.2]
        simp [minutesOfGame, List.filter_cons, hhas, hlu]
    | none =>
      have hflt : p.2.played.filter (fun q => q.1 == g) = [] := by
        rw [hfk, hf]
      have hhas : hasGame g p.2 = false := by
        rw [hasGame, List.any_eq_false]
        intro x hx
        have := List.find?_eq_none.mp hf x hx
        simpa using this
      constructor
      · simp only [sessions, playersIn, List.filter_append, List.map_append, hhead, hflt]
        simp only [playersIn] at ih
        rw [ih.1]
        simp [playersOfGame, List.filter_cons, hhas]
      · simp only [sessions, minutesIn, List.filter_append, List.map_append, hhead, hflt,
          List.sum_append]
        simp only [minutesIn] at ih
        rw [ih.2]
        simp [minutesOfGame, List.filter_cons, hhas]

/-- Well-formedness carried by a DailyDiff coming from Python dicts: unique
usernames and unique game keys in each user's `played`. -/
def DailyDiffWF (d : DailyDiff) : Prop :=
  (d.map Prod.fst).Nodup ∧ ∀ p ∈ d, (p.2.played.map Prod.fst).Nodup

instance (d : DailyDiff) : Decidable (DailyDiffWF d) := by
  unfold DailyDiffWF
  infer_instance

theorem playersIn_ne_nil_iff (l : List (String × String × Int)) (g : String) :
    playersIn l g ≠ [] ↔ l.any (fun s => s.2.1 == g) = true := by
  unfold playersIn
  rw [ne_eq, List.map_eq_nil_iff, List.filter_eq_nil_iff, List.any_eq_true]
  push_neg
  simp

/-- C8: under the dict well-formedness invariants, a game appears in
`games_played_together` exactly when at least two users have it in their
`played` mapping, and then with exactly those users and the sum of their
individual deltas. -/
theorem C8_coop_detection (d : DailyDiff) (hwf : DailyDiffWF d) (g : String) :
    ((∃ t ∈ (calculate_group_stats d).games_played_together, t.name = g) ↔
      2 ≤ (playersOfGame d g).length) ∧
    (∀ t ∈ (calculate_group_stats d).games_played_together, t.name = g →
      t.players = playersOfGame d g ∧ t.total_minutes = minutesOfGame d g) := by
  have hgpt : (calculate_group_stats d).games_played_together =
      ((gamesAggOf d).filter (fun p => 1 < p.2.players.length)).map
        (fun p => ⟨p.1, p.2.players, p.2.total_minutes⟩) := rfl
  have hagg : gamesAggOf d = (sessions d).foldl aggStep [] := by
    rw [gamesAggOf]
    exact gamesAggOf_eq_foldl_sessions d []
  have hroll := sessions_rollup_eq g d hwf.2
  have hkeysnd : ((gamesAggOf d).map Prod.fst).Nodup := by
    rw [hagg]
    exact foldl_aggStep_keys (sessions d) [] (by simp)
  have hchar : findA (gamesAggOf d) g =
      (if (sessions d).any (fun s => s.2.1 == g) = true then
        some ⟨playersOfGame d g, minutesOfGame d g⟩ else none) := by
    rw [hagg, findA_foldl_aggStep g (sessions d) []]
    show (if (sessions d).any (fun s => s.2.1 == g) = true then
        some (GameAgg.mk (playersIn (sessions d) g) (minutesIn (sessions d) g)) else none) = _
    rw [hroll.1, hroll.2]
  have hcore : ∀ p : String × GameAgg,
      p ∈ (gamesAggOf d).filter (fun r => 1 < r.2.players.length) → p.1 = g →
      p.2 = ⟨playersOfGame d g, minutesOfGame d g⟩ := by
    intro p hpf hp1
    obtain ⟨hpagg, _⟩ := List.mem_filter.mp hpf
    have hmemg : (g, p.2) ∈ gamesAggOf d := by
      rw [← hp1, Prod.mk.eta]
      exact hpagg
    have hfa : findA (gamesAggOf d) g = some p.2 := findA_eq_some_of_mem hkeysnd hmemg
    rw [hchar] at hfa
    by_cases hany : (sessions d).any (fun s => s.2.1 == g) = true
    · rw [if_pos hany] at hfa
      injection hfa with hfa
      exact hfa.symm
    · rw [if_neg hany] at hfa
      simp at hfa
  constructor
  · constructor
    · rintro ⟨t, ht, htn⟩
      rw [hgpt] at ht
      obtain ⟨p, hpf, rfl⟩ := List.mem_map.mp ht
      have hp2 := hcore p hpf htn
      obtain ⟨_, hplen⟩ := List.mem_filter.mp hpf
      have hlen : 1 < p.2.players.length := by simpa using hplen
      rw [hp2] at hlen
      simpa using hlen
    · intro hlen2
      have hne : playersOfGame d g ≠ [] := by
        intro h
        rw [h] at hlen2
        simp at hlen2
      have hany : (sessions d).any (fun s => s.2.1 == g) = true := by
        rw [← playersIn_ne_nil_iff, hroll.1]
        exact hne
      have hfa : findA (gamesAggOf d) g =
          some ⟨playersOfGame d g, minutesOfGame d g⟩ := by
        rw [hchar, if_pos hany]
      have hmem := mem_of_findA_eq_some hfa
      refine ⟨⟨g, playersOfGame d g, minutesOfGame d g⟩, ?_, rfl⟩
      rw [hgpt]
      refine List.mem_map.mpr
        ⟨(g, ⟨playersOfGame d g, minutesOfGame d g⟩), List.mem_filter.mpr ⟨hmem, ?_⟩, rfl⟩
      simp only [decide_eq_true_eq]
      omega
  · intro t ht htn
    rw [hgpt] at ht
    obtain ⟨p, hpf, rfl⟩ := List.mem_map.mp ht
    have hp2 := hcore p hpf htn
    constructor
    · show p.2.players = playersOfGame d g
      rw [hp2]
    · show p.2.total_minutes = minutesOfGame d g
      rw [hp2]

def dC8 : DailyDiff :=
  [("alice", { played := [("Chess", 30)], total_minutes := 30, games_played := 1 }),
   ("bob", { played := [("Chess", 20)], total_minutes := 20,
             new_games := ["Chess"], games_played := 1 })]

/-- C8 witness. -/
theorem C8_coop_detection_witness :
    ((∃ t ∈ (calculate_group_stats dC8).games_played_together, t.name = "Chess") ↔
      2 ≤ (playersOfGame dC8 "Chess").length) ∧
    (∀ t ∈ (calculate_group_stats dC8).games_played_together, t.name = "Chess" →
      t.players = playersOfGame dC8 "Chess" ∧
        t.total_minutes = minutesOfGame dC8 "Chess") :=
  C8_coop_detection dC8 (by decide) "Chess"

end SteamDigest
